import Mathlib

/-!
Verification of the `devtools` label registry and testing helpers.

The Python sources (`src/devtools/label/_classes.py`, `src/devtools/label/_common.py`,
`src/devtools/testing.py`) are shallowly embedded below.  Callables are identified by a
`Nat` identity (Python object identity), the Registry's backing dictionary is an
association list with dictionary semantics (at most one binding per key, insertion
order preserved, overwrite in place), and Python exceptions are modelled with
`Except`/`Option`.
-/

/-- Generic association lookup, first (and, for dictionaries, only) binding wins.
Models Python `dict.__getitem__` returning `none` for `KeyError`. -/
def assocGet {κ α : Type} [DecidableEq κ] : List (κ × α) → κ → Option α
  | [], _ => none
  | (k', v) :: t, k => if k' = k then some v else assocGet t k

/-- Generic association update: overwrite in place if the key is present, otherwise
append at the end.  Models Python `dict.__setitem__` (insertion order preserved). -/
def assocSet {κ α : Type} [DecidableEq κ] : List (κ × α) → κ → α → List (κ × α)
  | [], k, v => [(k, v)]
  | (k', v') :: t, k, v => if k' = k then (k, v) :: t else (k', v') :: assocSet t k v

/-- `_LabelEnum[name]` (`_classes.py`): the ordinal of a label name, `none` for a
name outside the closed enumeration (Python raises `KeyError`, the spec's
`UnknownLabel`). -/
def labelOrd (s : String) : Option Nat :=
  if s = "deprecated" then some 0
  else if s = "pure" then some 1
  else if s = "idempotent" then some 2
  else none

/-- `_LabelEnum(c).name` (`_classes.py`): the canonical name of an ordinal, `none`
for an ordinal outside the closed enumeration (Python raises `ValueError`). -/
def labelName (c : Nat) : Option String :=
  if c = 0 then some "deprecated"
  else if c = 1 then some "pure"
  else if c = 2 then some "idempotent"
  else none

/-- `sum(2**_LabelEnum[name] for name in names)` from `register` in `_common.py`:
the registered bitmask is the SUM of the bit-values of the given names, failing at
the first name outside the enumeration. -/
def encodeMask : List String → Option Nat
  | [] => some 0
  | s :: t =>
    match labelOrd s, encodeMask t with
    | some o, some m => some (2 ^ o + m)
    | _, _ => none

/-- Modelled from the spec: the bitwise OR of the bit-values of the given label
names ("the bitwise OR of the bit-values for every given label name", §4.3).  This
is the spec's claimed semantics, to be compared with `encodeMask` which is the
source's sum. Unknown names contribute via ordinal 0; the comparison theorems only
use it on names inside the enumeration. -/
def specOrMask : List String → Nat
  | [] => 0
  | s :: t => 2 ^ ((labelOrd s).getD 0) ||| specOrMask t

/-- The decode loop of `_Registry.get_info` (`_classes.py`): walk the bitmask from
bit 0 upward, emitting the enumeration's name for each set bit; `none` when a set
bit has no label (Python's `_LabelEnum(c)` raises `ValueError`). -/
def decodeAux (n c : Nat) : Option (List String) :=
  if h : n = 0 then some []
  else
    match (if n % 2 = 1 then (labelName c).map (fun s => [s]) else some []) with
    | none => none
    | some hd =>
      match decodeAux (n / 2) (c + 1) with
      | none => none
      | some tl => some (hd ++ tl)
termination_by n
decreasing_by exact Nat.div_lt_self (Nat.pos_of_ne_zero h) (by decide)

/-- Decode a full bitmask starting from bit 0 (`get_info`'s loop with `c = 0`). -/
def decodeMask (n : Nat) : Option (List String) :=
  decodeAux n 0

/-- The Registry's backing store `_Registry.__data`: callable identity ↦ bitmask. -/
abbrev Reg := List (Nat × Nat)

/-- `_Registry.__getitem__`. -/
def regGet (r : Reg) (k : Nat) : Option Nat :=
  assocGet r k

/-- `_Registry.__setitem__`. -/
def regSet (r : Reg) (k : Nat) (v : Nat) : Reg :=
  assocSet r k v

/-- `_inner in reg` (membership test via `__contains__`/`__getitem__`). -/
def regContains (r : Reg) (k : Nat) : Bool :=
  (regGet r k).isSome

/-- Removal of a key's binding.  A Python dictionary holds at most one binding per
key, so deletion removes every binding at that key of the modelled list. -/
def eraseKey : Reg → Nat → Reg
  | [], _ => []
  | p :: t, k => if p.1 = k then eraseKey t k else p :: eraseKey t k

/-- `_Registry.__delitem__`: `none` models the `KeyError` raised when absent. -/
def regDel (r : Reg) (k : Nat) : Option Reg :=
  if regContains r k then some (eraseKey r k) else none

/-- A Python value, as far as the claims need: `None`, scalars, a type object
(resolved annotation), a raw string annotation, or a list of label names. -/
inductive PyData : Type
  | pyNone : PyData
  | pyBool : Bool → PyData
  | pyInt : Int → PyData
  | pyStr : String → PyData
  | pyType : String → PyData
  | pyStrList : List String → PyData
deriving DecidableEq, Repr

/-- A Python object as seen by the lookup functions: its identity, whether
`callable(·)` holds, and its `__name__`. -/
structure PyVal : Type where
  id : Nat
  callable : Bool
  name : String
deriving DecidableEq, Repr

/-- The Python exceptions the embedded code can raise.  `keyError` doubles as the
spec's `NotRegistered`, `valueError` as its `InvalidArgument`/bad-ordinal error,
`typeError` is the base allocator's excess-argument error, and `userErr` stands
for an exception raised by a wrapped callable itself. -/
inductive PyErr : Type
  | keyError : PyErr
  | valueError : PyErr
  | typeError : PyErr
  | userErr : String → PyErr
deriving DecidableEq, Repr

/-- The positional and keyword arguments of one invocation. -/
structure CallArgs : Type where
  args : List PyData
  kwargs : List (String × PyData)
deriving DecidableEq, Repr

/-- `_Registry.get_info` (`_classes.py`): `ValueError` if the argument is not
callable, `KeyError` if it has no entry, then decode the stored bitmask (which
itself raises `ValueError` on a set bit outside the enumeration). -/
def get_info (reg : Reg) (clb : PyVal) : Except PyErr (List String) :=
  if !clb.callable then Except.error PyErr.valueError
  else
    match regGet reg clb.id with
    | none => Except.error PyErr.keyError
    | some n =>
      match decodeMask n with
      | none => Except.error PyErr.valueError
      | some labels => Except.ok labels

/-- The warnings one invocation of `_inner` emits (`_common.py`): one fixed
message per set label bit, checked in enumeration order 0, 1, 2. -/
def warningsFor (m : Nat) : List String :=
  (if (m >>> 0) % 2 = 1 then ["Function is deprecated."] else []) ++
  (if (m >>> 1) % 2 = 1 then ["Function is pure."] else []) ++
  (if (m >>> 2) % 2 = 1 then ["Function is idempotent."] else [])

/-- The fixed warning message of each label ordinal. -/
def labelMessage (i : Nat) : String :=
  if i = 0 then "Function is deprecated."
  else if i = 1 then "Function is pure."
  else if i = 2 then "Function is idempotent."
  else ""

/-- One invocation of the instrumented callable `_inner` (`_common.py`): look up
its own bitmask in the Registry (`KeyError` if the entry is gone — this happens
before the original callable runs), emit the per-label warnings, then call the
original with the same arguments; the original's outcome (result or exception) is
returned unchanged in the second component. -/
def runInner (reg : Reg) (k : Nat) (clb : CallArgs → Except PyErr PyData)
    (a : CallArgs) : Except PyErr (List String × Except PyErr PyData) :=
  match regGet reg k with
  | none => Except.error PyErr.keyError
  | some m => Except.ok (warningsFor m, clb a)

/-- The body of `register`'s `_reg_callable` (`_common.py`), at the moment a fresh
`_inner` with identity `k` wraps a callable named `clbName`: warn if `k` is
already registered, then store the encoded bitmask (`none` when a label name is
outside the enumeration, modelling the `KeyError` from `_LabelEnum[name]`). -/
def regCallable (reg : Reg) (clbName : String) (k : Nat) (names : List String) :
    List String × Option Reg :=
  let ws :=
    if regContains reg k then
      ["Callable (" ++ clbName ++ ") already registered."]
    else []
  match encodeMask names with
  | none => (ws, none)
  | some m => (ws, some (regSet reg k m))

/-- `getinfo` (`_common.py`): delegate to `get_info`, catching only `KeyError`;
with the default `None` the error is re-raised, otherwise the supplied default is
returned unchanged.  All other exceptions propagate. -/
def getinfo (reg : Reg) (clb : PyVal) (val : PyData) : Except PyErr PyData :=
  match get_info reg clb with
  | Except.ok info => Except.ok (PyData.pyStrList info)
  | Except.error PyErr.keyError =>
    if val = PyData.pyNone then Except.error PyErr.keyError
    else Except.ok val
  | Except.error e => Except.error e

/-- The loop body of `getinfovars` (`_common.py`): skip non-callables, store the
labels under the value's `__name__`, swallow only `KeyError`. -/
def varsStep (reg : Reg) (info : List (String × List String)) (p : String × PyVal) :
    Except PyErr (List (String × List String)) :=
  if p.2.callable then
    match get_info reg p.2 with
    | Except.ok ls => Except.ok (assocSet info p.2.name ls)
    | Except.error PyErr.keyError => Except.ok info
    | Except.error e => Except.error e
  else Except.ok info

/-- `getinfovars` (`_common.py`): fold the loop body over the mapping's values. -/
def getinfovars (reg : Reg) (vs : List (String × PyVal)) :
    Except PyErr (List (String × List String)) :=
  vs.foldlM (varsStep reg) []

/-- `getinfomodule` (`_common.py`): `getinfovars(vars(module))`; the module is
modelled by its `vars` mapping. -/
def getinfomodule (reg : Reg) (vs : List (String × PyVal)) :
    Except PyErr (List (String × List String)) :=
  getinfovars reg vs

/-- The loop body of `getinfoiter` (`_common.py`): as `varsStep`, but keyed by the
callable object itself. -/
def iterStep (reg : Reg) (info : List (PyVal × List String)) (it : PyVal) :
    Except PyErr (List (PyVal × List String)) :=
  if it.callable then
    match get_info reg it with
    | Except.ok ls => Except.ok (assocSet info it ls)
    | Except.error PyErr.keyError => Except.ok info
    | Except.error e => Except.error e
  else Except.ok info

/-- `getinfoiter` (`_common.py`): fold the loop body over the iterable. -/
def getinfoiter (reg : Reg) (items : List PyVal) :
    Except PyErr (List (PyVal × List String)) :=
  items.foldlM (iterStep reg) []

/-- The entry `getinfovars` contributes for one value when no error interrupts the
scan: `(name, labels)` for a registered callable, nothing otherwise. -/
def varsEntry (reg : Reg) (it : PyVal) : Option (String × List String) :=
  if it.callable then
    match get_info reg it with
    | Except.ok ls => some (it.name, ls)
    | Except.error _ => none
  else none

/-- The entry `getinfoiter` contributes for one item, keyed by the item itself. -/
def iterEntry (reg : Reg) (it : PyVal) : Option (PyVal × List String) :=
  if it.callable then
    match get_info reg it with
    | Except.ok ls => some (it, ls)
    | Except.error _ => none
  else none

/-- The public operations that mutate the Registry store: registering a callable
with a list of label names (a no-op when the encoding fails), and deleting an
entry. -/
inductive RegOp : Type
  | reg : Nat → List String → RegOp
  | del : Nat → RegOp
deriving DecidableEq, Repr

/-- A registration uses pairwise-distinct names drawn from the enumeration. -/
abbrev validOp : RegOp → Prop
  | RegOp.reg _ names => names.Nodup ∧ ∀ s ∈ names, (labelOrd s).isSome
  | RegOp.del _ => True

/-- Apply one public operation to the backing store. -/
def applyOp (r : Reg) : RegOp → Reg
  | RegOp.reg k names =>
    match encodeMask names with
    | some m => regSet r k m
    | none => r
  | RegOp.del k => eraseKey r k

/-- Apply a sequence of public operations, oldest first. -/
def applyOps (r : Reg) : List RegOp → Reg
  | [] => r
  | op :: t => applyOps (applyOp r op) t

/-- The process state behind `_Registry.__new__` (`_classes.py`): the class-level
`__cache` mapping each concrete class to its unique instance, one backing store
(`__data`) per allocated instance, and a supply of fresh instance identities. -/
structure SysState : Type where
  cache : List (Nat × Nat)
  stores : List (Nat × Reg)
  nextId : Nat
deriving DecidableEq, Repr

/-- `_Registry.__new__` for class `cls`: on a cache miss it calls
`super(_Registry, cls).__new__(cls, *args, **kwargs)` — and because `__new__` is
overridden while `__init__` is not, CPython's `object.__new__` raises
`TypeError` whenever any construction argument is present (Python ≥ 3.3; the
package requires ≥ 3.7) — then records the fresh instance with an empty
`__data` store.  On a hit it returns the cached instance untouched; the
arguments then only reach `object.__init__`, which tolerates them because
`__new__` is overridden.  Positional and keyword construction arguments are
modelled by the one list. -/
def registryNew (cls : Nat) (constructionArgs : List PyData) (s : SysState) :
    Except PyErr (Nat × SysState) :=
  match assocGet s.cache cls with
  | some inst => Except.ok (inst, s)
  | none =>
    if constructionArgs = [] then
      Except.ok (s.nextId,
        SysState.mk (assocSet s.cache cls s.nextId)
          (assocSet s.stores s.nextId []) (s.nextId + 1))
    else Except.error PyErr.typeError

/-- The backing store of an instance (empty for a never-allocated identity). -/
def storeOf (s : SysState) (inst : Nat) : Reg :=
  (assocGet s.stores inst).getD []

/-- Register `k ↦ m` through the Registry handle `inst`. -/
def registerIn (s : SysState) (inst : Nat) (k m : Nat) : SysState :=
  SysState.mk s.cache (assocSet s.stores inst (regSet (storeOf s inst) k m))
    s.nextId

/-- The result of `inspect.getfullargspec` for a callable, plus nothing else:
raw (possibly string-valued, PEP 563) annotations, positional argument names,
variadic capture names, defaults, and keyword-only data (`testing.py`). -/
structure FullArgSpec : Type where
  annotations : List (String × PyData)
  args : List String
  varargs : Option String
  varkw : Option String
  defaults : Option (List PyData)
  kwonlyargs : List String
  kwonlydefaults : Option (List (String × PyData))
deriving DecidableEq, Repr

/-- A callable as `check_signature` sees it: its `getfullargspec` result and its
`typing.get_type_hints` result (annotations with string forms resolved to types). -/
structure PyFunc : Type where
  spec : FullArgSpec
  hints : List (String × PyData)
deriving DecidableEq, Repr

/-- `check_signature` (`testing.py`): assert `annotations == get_type_hints(clb)`,
then assert equality of each `getfullargspec` field against the like-named
argument, in the source's loop order.  The returned error labels which assert
fired. -/
def check_signature (clb : PyFunc) (annotations : List (String × PyData))
    (args : List String) (defaults : Option (List PyData))
    (varargs : Option String) (varkw : Option String)
    (kwonlyargs : List String)
    (kwonlydefaults : Option (List (String × PyData))) : Except String Unit :=
  if annotations ≠ clb.hints then Except.error "get_type_hints"
  else if clb.spec.annotations ≠ annotations then Except.error "annotations"
  else if clb.spec.args ≠ args then Except.error "args"
  else if clb.spec.varargs ≠ varargs then Except.error "varargs"
  else if clb.spec.varkw ≠ varkw then Except.error "varkw"
  else if clb.spec.defaults ≠ defaults then Except.error "defaults"
  else if clb.spec.kwonlyargs ≠ kwonlyargs then Except.error "kwonlyargs"
  else if clb.spec.kwonlydefaults ≠ kwonlydefaults then
    Except.error "kwonlydefaults"
  else Except.ok ()

/-- A callable defined under `from __future__ import annotations` with signature
`f(a)` and annotation `a: int`: its raw annotations are the unevaluated string
`'int'`, its resolved type hints the type `int`. -/
def pep563Func : PyFunc :=
  PyFunc.mk
    (FullArgSpec.mk [("a", PyData.pyStr "int")] ["a"] none none none [] none)
    [("a", PyData.pyType "int")]

theorem assocGet_assocSet_self {κ α : Type} [DecidableEq κ]
    (l : List (κ × α)) (k : κ) (v : α) : assocGet (assocSet l k v) k = some v := by
  induction l with
  | nil => simp [assocGet, assocSet]
  | cons p t ih =>
    by_cases h : p.1 = k
    · simp [assocSet, h, assocGet]
    · simp [assocSet, h, assocGet, ih]

theorem assocGet_assocSet_ne {κ α : Type} [DecidableEq κ]
    (l : List (κ × α)) (k k' : κ) (v : α) (h : k' ≠ k) :
    assocGet (assocSet l k v) k' = assocGet l k' := by
  induction l with
  | nil => simp [assocGet, assocSet, Ne.symm h]
  | cons p t ih =>
    by_cases hp : p.1 = k
    · simp [assocSet, hp, assocGet, Ne.symm h]
    · by_cases hp' : p.1 = k'
      · simp [assocSet, hp, assocGet, hp', h]
      · simp [assocSet, hp, assocGet, hp', ih]

theorem assocSet_eq_append {κ α : Type} [DecidableEq κ]
    (l : List (κ × α)) (k : κ) (v : α) (h : assocGet l k = none) :
    assocSet l k v = l ++ [(k, v)] := by
  induction l with
  | nil => simp [assocSet]
  | cons p t ih =>
    by_cases hp : p.1 = k
    · simp [assocGet, hp] at h
    · simp [assocGet, hp] at h
      simp [assocSet, hp, ih h]

theorem assocGet_append_none {κ α : Type} [DecidableEq κ]
    (l₁ l₂ : List (κ × α)) (k : κ) (h : assocGet l₁ k = none) :
    assocGet (l₁ ++ l₂) k = assocGet l₂ k := by
  induction l₁ with
  | nil => simp
  | cons p t ih =>
    by_cases hp : p.1 = k
    · simp [assocGet, hp] at h
    · simp [assocGet, hp] at h
      simp [assocGet, hp, ih h]

theorem mem_assocSet {κ α : Type} [DecidableEq κ]
    (l : List (κ × α)) (k : κ) (v : α) (p : κ × α) (hp : p ∈ assocSet l k v) :
    p = (k, v) ∨ p ∈ l := by
  induction l with
  | nil =>
    simp [assocSet] at hp
    exact Or.inl hp
  | cons q t ih =>
    by_cases hq : q.1 = k
    · simp [assocSet, hq] at hp
      rcases hp with hp | hp
      · exact Or.inl hp
      · exact Or.inr (List.mem_cons_of_mem q hp)
    · simp [assocSet, hq] at hp
      rcases hp with hp | hp
      · exact Or.inr (by simp [hp])
      · rcases ih hp with h | h
        · exact Or.inl h
        · exact Or.inr (List.mem_cons_of_mem q h)

theorem regGet_eraseKey_self (r : Reg) (k : Nat) :
    regGet (eraseKey r k) k = none := by
  induction r with
  | nil => rfl
  | cons p t ih =>
    by_cases hp : p.1 = k
    · simpa [eraseKey, hp] using ih
    · simpa [eraseKey, hp, regGet, assocGet] using ih

theorem mem_eraseKey (r : Reg) (k : Nat) (p : Nat × Nat)
    (hp : p ∈ eraseKey r k) : p ∈ r := by
  induction r with
  | nil => simpa [eraseKey] using hp
  | cons q t ih =>
    by_cases hq : q.1 = k
    · simp only [eraseKey, hq, if_pos] at hp
      exact List.mem_cons_of_mem q (ih hp)
    · simp only [eraseKey, hq, if_neg, not_false_iff, List.mem_cons] at hp
      rcases hp with hp | hp
      · exact hp ▸ List.mem_cons_self q t
      · exact List.mem_cons_of_mem q (ih hp)

theorem regGet_mem (r : Reg) (k m : Nat) (h : regGet r k = some m) : (k, m) ∈ r := by
  induction r with
  | nil => simp [regGet, assocGet] at h
  | cons p t ih =>
    rcases p with ⟨a, b⟩
    by_cases hp : a = k
    · subst hp
      simp [regGet, assocGet] at h
      subst h
      exact List.mem_cons_self _ _
    · simp [regGet, assocGet, hp] at h
      exact List.mem_cons_of_mem _ (ih h)

theorem labelOrd_isSome_iff (s : String) :
    (labelOrd s).isSome ↔ s = "deprecated" ∨ s = "pure" ∨ s = "idempotent" := by
  unfold labelOrd
  by_cases h1 : s = "deprecated"
  · simp [h1]
  · by_cases h2 : s = "pure"
    · simp [h1, h2]
    · by_cases h3 : s = "idempotent"
      · simp [h1, h2, h3]
      · simp [h1, h2, h3]

theorem encodeMask_nodup_mem (L : List String) (hnd : L.Nodup)
    (hv : ∀ s ∈ L, (labelOrd s).isSome) :
    encodeMask L = some ((if "deprecated" ∈ L then 1 else 0) +
      ((if "pure" ∈ L then 2 else 0) + (if "idempotent" ∈ L then 4 else 0))) := by
  induction L with
  | nil => simp [encodeMask]
  | cons s t ih =>
    have hs := (labelOrd_isSome_iff s).mp (hv s (List.mem_cons_self s t))
    have hnd' : t.Nodup := hnd.of_cons
    have hst : s ∉ t := (List.nodup_cons.mp hnd).1
    have hv' : ∀ x ∈ t, (labelOrd x).isSome := fun x hx => hv x (List.mem_cons_of_mem s hx)
    have iht := ih hnd' hv'
    rcases hs with hs | hs | hs <;> subst hs <;>
      simp [encodeMask, iht, labelOrd, List.mem_cons, hst] <;> omega

theorem specOrMask_nodup_mem (L : List String) (hnd : L.Nodup)
    (hv : ∀ s ∈ L, (labelOrd s).isSome) :
    specOrMask L = ((if "deprecated" ∈ L then 1 else 0) |||
      ((if "pure" ∈ L then 2 else 0) ||| (if "idempotent" ∈ L then 4 else 0))) := by
  induction L with
  | nil => simp [specOrMask]
  | cons s t ih =>
    have hs := (labelOrd_isSome_iff s).mp (hv s (List.mem_cons_self s t))
    have hnd' : t.Nodup := hnd.of_cons
    have hst : s ∉ t := (List.nodup_cons.mp hnd).1
    have hv' : ∀ x ∈ t, (labelOrd x).isSome := fun x hx => hv x (List.mem_cons_of_mem s hx)
    have iht := ih hnd' hv'
    rcases hs with hs | hs | hs <;> subst hs <;>
      simp [specOrMask, iht, labelOrd, List.mem_cons, hst] <;>
      by_cases h1 : "deprecated" ∈ t <;> by_cases h2 : "pure" ∈ t <;>
      by_cases h3 : "idempotent" ∈ t <;> simp [h1, h2, h3]

theorem sum_form_eq_or_form (a b c : Bool) :
    ((if a then 1 else 0) + ((if b then 2 else 0) + (if c then 4 else 0)) : Nat) =
      ((if a then 1 else 0) ||| ((if b then 2 else 0) ||| (if c then 4 else 0))) := by
  cases a <;> cases b <;> cases c <;> decide

theorem sum_form_lt8 (a b c : Bool) :
    ((if a then 1 else 0) + ((if b then 2 else 0) + (if c then 4 else 0)) : Nat) < 8 := by
  cases a <;> cases b <;> cases c <;> decide

theorem decodeMask_isSome_of_lt8 (n : Nat) (h : n < 8) : (decodeMask n).isSome := by
  interval_cases n <;> simp [decodeMask, decodeAux, labelName]

/-- C1: decorating a callable with a duplicate-free sequence `L` of names from the
closed enumeration and then describing it via `get_info` returns exactly the set
of names in `L`, in ascending bit-index order (deprecated before pure before
idempotent) regardless of the order `L` was given. -/
theorem register_then_getinfo_ordered (L : List String) (reg : Reg) (k : Nat)
    (fn nm : String) (hnd : L.Nodup) (hv : ∀ s ∈ L, (labelOrd s).isSome) :
    ∃ m : Nat, encodeMask L = some m ∧
      (regCallable reg fn k L).2 = some (regSet reg k m) ∧
      get_info (regSet reg k m) (PyVal.mk k true nm) =
        Except.ok (["deprecated", "pure", "idempotent"].filter
          (fun s => decide (s ∈ L))) := by
  have hm := encodeMask_nodup_mem L hnd hv
  refine ⟨_, hm, ?_, ?_⟩
  · simp [regCallable, hm]
  · by_cases hd : "deprecated" ∈ L <;> by_cases hp : "pure" ∈ L <;>
      by_cases hi : "idempotent" ∈ L <;>
      simp [get_info, regGet, regSet, assocGet_assocSet_self, hd, hp, hi,
        decodeMask, decodeAux, labelName]

/-- Witness for C1 at `L = ["idempotent", "deprecated"]`. -/
theorem register_then_getinfo_ordered_witness :
    ∃ m : Nat, encodeMask ["idempotent", "deprecated"] = some m ∧
      (regCallable [] "f" 0 ["idempotent", "deprecated"]).2 = some (regSet [] 0 m) ∧
      get_info (regSet [] 0 m) (PyVal.mk 0 true "f") =
        Except.ok (["deprecated", "pure", "idempotent"].filter
          (fun s => decide (s ∈ (["idempotent", "deprecated"] : List String)))) :=
  register_then_getinfo_ordered ["idempotent", "deprecated"] [] 0 "f" "f"
    (by decide) (by decide)

/-- C2: invoking an instrumented callable whose registered bitmask is `m` emits
one fixed warning per set label bit in ascending bit-index order, then calls the
original callable with exactly the given arguments and returns its outcome
(result or exception) unchanged; the three messages are pairwise distinct and a
zero bitmask emits no warnings. -/
theorem inner_warn_call (reg : Reg) (k m : Nat)
    (clb : CallArgs → Except PyErr PyData) (a : CallArgs)
    (h : regGet reg k = some m) :
    runInner reg k clb a = Except.ok (warningsFor m, clb a) ∧
    warningsFor m = (List.range 3).filterMap
      (fun i => if (m >>> i) % 2 = 1 then some (labelMessage i) else none) ∧
    warningsFor 0 = [] ∧
    labelMessage 0 ≠ labelMessage 1 ∧ labelMessage 0 ≠ labelMessage 2 ∧
    labelMessage 1 ≠ labelMessage 2 := by
  refine ⟨by simp [runInner, h], ?_, by decide, by decide, by decide, by decide⟩
  rw [show List.range 3 = [0, 1, 2] from rfl]
  by_cases h0 : m % 2 = 1 <;> by_cases h1 : (m >>> 1) % 2 = 1 <;>
    by_cases h2 : (m >>> 2) % 2 = 1 <;>
    simp [warningsFor, labelMessage, Nat.shiftRight_zero, h0, h1, h2]

/-- Witness for C2 at bitmask 5 (deprecated and idempotent). -/
theorem inner_warn_call_witness :
    regGet [(0, 5)] 0 = some 5 ∧
    runInner [(0, 5)] 0 (fun _ => Except.ok PyData.pyNone) (CallArgs.mk [] []) =
      Except.ok (warningsFor 5, Except.ok PyData.pyNone) :=
  ⟨by decide,
    (inner_warn_call [(0, 5)] 0 5 (fun _ => Except.ok PyData.pyNone)
      (CallArgs.mk [] []) (by decide)).1⟩

/-- C6: when the instrumented callable's identity is already present in the
Registry at wrapping time, exactly one "already registered" warning is emitted
and the registration overwrites the prior bitmask, so a lookup sees only the
latest mask; when it is not present, no warning is emitted. -/
theorem already_registered_warning (reg reg2 : Reg) (fn : String) (k k2 : Nat)
    (L : List String) (m : Nat) (hm : encodeMask L = some m)
    (hin : regContains reg k = true) (hout : regContains reg2 k2 = false) :
    regCallable reg fn k L =
      (["Callable (" ++ fn ++ ") already registered."], some (regSet reg k m)) ∧
    regGet (regSet reg k m) k = some m ∧
    regCallable reg2 fn k2 L = ([], some (regSet reg2 k2 m)) := by
  refine ⟨?_, ?_, ?_⟩
  · simp [regCallable, hin, hm]
  · simpa [regGet, regSet] using assocGet_assocSet_self reg k m
  · simp [regCallable, hout, hm]

/-- Witness for C6: key 0 registered, key 1 not. -/
theorem already_registered_warning_witness :
    encodeMask ["pure"] = some 2 ∧
    regContains [(0, 1)] 0 = true ∧ regContains [(0, 1)] 1 = false ∧
    regCallable [(0, 1)] "f" 0 ["pure"] =
      (["Callable (f) already registered."], some (regSet [(0, 1)] 0 2)) ∧
    regCallable [(0, 1)] "f" 1 ["pure"] = ([], some (regSet [(0, 1)] 1 2)) := by
  have h := already_registered_warning [(0, 1)] [(0, 1)] "f" 0 1 ["pure"] 2
    (by decide) (by decide) (by decide)
  exact ⟨by decide, by decide, by decide, h.1, h.2.2⟩

/-- C10: the instrumented callable reads its bitmask from the Registry on every
invocation; once its entry has been deleted, invoking it fails with the registry
`KeyError` — for every wrapped callable and argument list alike, so the original
callable is never reached. -/
theorem deleted_entry_invocation_fails (reg reg' : Reg) (k : Nat)
    (h : regDel reg k = some reg') (clb : CallArgs → Except PyErr PyData)
    (a : CallArgs) :
    runInner reg' k clb a = Except.error PyErr.keyError := by
  unfold regDel at h
  split at h
  · obtain rfl := Option.some.inj h
    simp [runInner, regGet_eraseKey_self]
  · cases h

/-- Witness for C10: delete the only entry, then invoke. -/
theorem deleted_entry_invocation_fails_witness :
    regDel [(0, 1)] 0 = some [] ∧
    runInner [] 0 (fun _ => Except.ok PyData.pyNone) (CallArgs.mk [] []) =
      Except.error PyErr.keyError :=
  ⟨by decide,
    deleted_entry_invocation_fails [(0, 1)] [] 0 (by decide)
      (fun _ => Except.ok PyData.pyNone) (CallArgs.mk [] [])⟩

theorem encodeMask_none_of_bad (L : List String) (s : String) (hs : s ∈ L)
    (hbad : labelOrd s = none) : encodeMask L = none := by
  induction L with
  | nil => cases hs
  | cons a t ih =>
    rcases List.mem_cons.mp hs with rfl | hs'
    · simp [encodeMask, hbad]
    · cases h : labelOrd a <;> simp [encodeMask, h, ih hs']

/-- C4 counterexample: the registered bitmask is the SUM of the bit-values, not
their bitwise OR — repeating a name changes the mask.  `register("deprecated",
"deprecated")` stores 2 (the `pure` bit!), while the OR of the bit-values is 1. -/
theorem register_mask_sum_not_or_cex :
    encodeMask ["deprecated", "deprecated"] = some 2 ∧
    specOrMask ["deprecated", "deprecated"] = 1 ∧ (2 : Nat) ≠ 1 := by
  decide

/-- C4 amended: for a DUPLICATE-FREE sequence of names from the enumeration the
registered bitmask equals the bitwise OR of the bit-values (hence is independent
of order); and `register` fails with `UnknownLabel` whenever any given name is
outside the enumeration.  (With repeated names the sum deviates from the OR.) -/
theorem register_mask_or_amended (L L2 : List String) (s : String)
    (hnd : L.Nodup) (hv : ∀ t ∈ L, (labelOrd t).isSome)
    (hs : s ∈ L2) (hbad : labelOrd s = none) :
    encodeMask L = some (specOrMask L) ∧ encodeMask L2 = none := by
  refine ⟨?_, encodeMask_none_of_bad L2 s hs hbad⟩
  rw [encodeMask_nodup_mem L hnd hv, specOrMask_nodup_mem L hnd hv]
  by_cases h1 : "deprecated" ∈ L <;> by_cases h2 : "pure" ∈ L <;>
    by_cases h3 : "idempotent" ∈ L <;> simp [h1, h2, h3]

/-- Witness for C4 amended at `L = ["pure", "idempotent"]`, `L2 = ["pure", "bogus"]`. -/
theorem register_mask_or_amended_witness :
    encodeMask ["pure", "idempotent"] = some (specOrMask ["pure", "idempotent"]) ∧
    encodeMask ["pure", "bogus"] = none :=
  register_mask_or_amended ["pure", "idempotent"] ["pure", "bogus"] "bogus"
    (by decide) (by decide) (by decide) (by decide)

/-- C5 counterexample: registering with the names `["idempotent", "idempotent"]`
(drawn from the enumeration, with repetition) stores the bitmask 8, whose set
bit 3 is not a valid label ordinal, and decoding that entry fails with
`ValueError`. -/
theorem registry_invariant_cex :
    applyOps [] [RegOp.reg 0 ["idempotent", "idempotent"]] = [(0, 8)] ∧
    (8 >>> 3) % 2 = 1 ∧ labelName 3 = none ∧ decodeMask 8 = none ∧
    get_info [(0, 8)] (PyVal.mk 0 true "f") = Except.error PyErr.valueError := by
  refine ⟨by decide, by decide, by decide, ?_, ?_⟩
  · simp [decodeMask, decodeAux, labelName]
  · simp [get_info, regGet, assocGet, decodeMask, decodeAux, labelName]

theorem applyOp_preserves_lt8 (r : Reg) (op : RegOp) (h0 : ∀ p ∈ r, p.2 < 8)
    (hop : validOp op) : ∀ p ∈ applyOp r op, p.2 < 8 := by
  intro p hp
  cases op with
  | reg k names =>
    obtain ⟨hnd, hv⟩ := hop
    have hm := encodeMask_nodup_mem names hnd hv
    rw [applyOp, hm] at hp
    rcases mem_assocSet r k _ p hp with rfl | hmem
    · by_cases h1 : "deprecated" ∈ names <;> by_cases h2 : "pure" ∈ names <;>
        by_cases h3 : "idempotent" ∈ names <;> simp [h1, h2, h3]
    · exact h0 p hmem
  | del k => exact h0 p (mem_eraseKey r k p hp)

theorem applyOps_preserves_lt8 (ops : List RegOp) : ∀ r : Reg,
    (∀ p ∈ r, p.2 < 8) → (∀ op ∈ ops, validOp op) →
    ∀ p ∈ applyOps r ops, p.2 < 8 := by
  induction ops with
  | nil => intro r h0 _ p hp; exact h0 p hp
  | cons op t ih =>
    intro r h0 hops p hp
    rw [applyOps] at hp
    exact ih (applyOp r op)
      (applyOp_preserves_lt8 r op h0 (hops op (List.mem_cons_self op t)))
      (fun o ho => hops o (List.mem_cons_of_mem op ho)) p hp

/-- C5 amended: starting from a store whose bitmasks are all below 8, after any
sequence of public operations whose registrations use DUPLICATE-FREE name
sequences drawn from the enumeration, every stored bitmask only has bits at
valid label ordinals (it stays below 8), every stored bitmask decodes, and
`get_info` succeeds on every registered callable.  (With repeated names the
invariant fails, see the counterexample.) -/
theorem registry_invariant_amended (reg0 : Reg) (ops : List RegOp)
    (h0 : ∀ p ∈ reg0, p.2 < 8) (hops : ∀ op ∈ ops, validOp op) :
    (∀ p ∈ applyOps reg0 ops, p.2 < 8 ∧ (decodeMask p.2).isSome) ∧
    (∀ v : PyVal, v.callable = true →
      ∀ m, regGet (applyOps reg0 ops) v.id = some m →
        ∃ ls, get_info (applyOps reg0 ops) v = Except.ok ls) := by
  have hlt := applyOps_preserves_lt8 ops reg0 h0 hops
  constructor
  · intro p hp
    exact ⟨hlt p hp, decodeMask_isSome_of_lt8 p.2 (hlt p hp)⟩
  · intro v hc m hm
    have hmem := regGet_mem (applyOps reg0 ops) v.id m hm
    have hdec := decodeMask_isSome_of_lt8 m (hlt (v.id, m) hmem)
    obtain ⟨ls, hls⟩ := Option.isSome_iff_exists.mp hdec
    exact ⟨ls, by simp [get_info, hc, hm, hls]⟩

/-- Witness for C5 amended: one valid registration then a deletion of a missing
key, starting from the empty store. -/
theorem registry_invariant_amended_witness :
    (∀ p ∈ applyOps [] [RegOp.reg 0 ["pure", "deprecated"], RegOp.del 1],
      p.2 < 8 ∧ (decodeMask p.2).isSome) ∧
    (∀ v : PyVal, v.callable = true →
      ∀ m, regGet (applyOps [] [RegOp.reg 0 ["pure", "deprecated"], RegOp.del 1])
          v.id = some m →
        ∃ ls, get_info (applyOps [] [RegOp.reg 0 ["pure", "deprecated"], RegOp.del 1])
          v = Except.ok ls) :=
  registry_invariant_amended [] [RegOp.reg 0 ["pure", "deprecated"], RegOp.del 1]
    (by simp)
    (by intro op hop; fin_cases hop
        · exact ⟨by decide, by decide⟩
        · trivial)


/-- C3 counterexample: on a cold cache, constructing the Registry WITH a
construction argument does not return an instance at all — the overridden
`__new__` forwards the argument to `object.__new__`, which raises `TypeError`
— while the argument-free construction succeeds. -/
theorem registry_construction_args_cex :
    registryNew 0 [PyData.pyInt 1] (SysState.mk [] [] 0) =
      Except.error PyErr.typeError ∧
    registryNew 0 [] (SysState.mk [] [] 0) =
      Except.ok (0, SysState.mk [(0, 0)] [(0, [])] 1) := by
  exact ⟨rfl, rfl⟩

/-- C3 amended: the FIRST construction of a concrete class must be
argument-free — with arguments it raises `TypeError`, see the counterexample.
Once the singleton exists, a further construction call, now even with arbitrary
different arguments, returns the identical instance and leaves the process
state untouched, so an entry registered after the first construction is
visible through the handle the second returns; a different concrete (sub)class
obtains a distinct instance whose backing store is independent of the
parent's. -/
theorem registry_singleton_amended (s : SysState) (c1 c2 k m : Nat)
    (a2 : List PyData)
    (h1 : assocGet s.cache c1 = none) (h2 : assocGet s.cache c2 = none)
    (hne : c1 ≠ c2)
    (i1 : Nat) (s1 : SysState) (e1 : registryNew c1 [] s = Except.ok (i1, s1))
    (s1' : SysState) (e2 : registerIn s1 i1 k m = s1')
    (i1b : Nat) (s2 : SysState)
    (e3 : registryNew c1 a2 s1' = Except.ok (i1b, s2))
    (i2 : Nat) (s3 : SysState)
    (e4 : registryNew c2 [] s2 = Except.ok (i2, s3)) :
    i1b = i1 ∧ s2 = s1' ∧ regGet (storeOf s2 i1b) k = some m ∧
    i2 ≠ i1 ∧ regGet (storeOf s3 i2) k = none := by
  simp [registryNew, h1] at e1
  obtain ⟨hi1, hs1⟩ := e1
  subst hi1
  subst hs1
  subst e2
  simp [registryNew, registerIn, assocGet_assocSet_self] at e3
  obtain ⟨hib, hs2⟩ := e3
  subst hib
  subst hs2
  simp [registryNew, registerIn,
    assocGet_assocSet_ne s.cache c1 c2 s.nextId (Ne.symm hne), h2] at e4
  obtain ⟨hi2, hs3⟩ := e4
  subst hi2
  subst hs3
  refine ⟨rfl, rfl, ?_, by omega, ?_⟩
  · simp [storeOf, registerIn, regGet, regSet, assocGet_assocSet_self, assocSet,
      assocGet]
  · simp [storeOf, registerIn, regGet, regSet, assocGet_assocSet_self, assocSet,
      assocGet]

/-- Witness for C3 amended: classes 0 and 1 from the empty process state,
registering `5 ↦ 3` between the two constructions of class 0, the second of
which passes a (different, non-empty) argument list. -/
theorem registry_singleton_amended_witness :
    (0 : Nat) = 0 ∧
    SysState.mk [(0, 0)] [(0, [(5, 3)])] 1 = SysState.mk [(0, 0)] [(0, [(5, 3)])] 1 ∧
    regGet (storeOf (SysState.mk [(0, 0)] [(0, [(5, 3)])] 1) 0) 5 = some 3 ∧
    (1 : Nat) ≠ 0 ∧
    regGet (storeOf (SysState.mk [(0, 0), (1, 1)] [(0, [(5, 3)]), (1, [])] 2) 1) 5 =
      none :=
  registry_singleton_amended (SysState.mk [] [] 0) 0 1 5 3 [PyData.pyInt 9]
    rfl rfl (by decide)
    0 (SysState.mk [(0, 0)] [(0, [])] 1) rfl
    (SysState.mk [(0, 0)] [(0, [(5, 3)])] 1) rfl
    0 (SysState.mk [(0, 0)] [(0, [(5, 3)])] 1) rfl
    1 (SysState.mk [(0, 0), (1, 1)] [(0, [(5, 3)]), (1, [])] 2) rfl

/-- C7 counterexample: `getinfo` on an unregistered callable with the supplied
default `None` does not return the default — it raises `KeyError`, because a
supplied `None` is indistinguishable from no default. -/
theorem getinfo_none_default_cex :
    getinfo [] (PyVal.mk 0 true "f") PyData.pyNone = Except.error PyErr.keyError ∧
    Except.error PyErr.keyError ≠
      (Except.ok PyData.pyNone : Except PyErr PyData) := by
  exact ⟨rfl, fun h => Except.noConfusion h⟩

/-- C7 amended: on an unregistered callable, `getinfo` without a default (i.e.
with `None`) raises `KeyError`, and with any supplied NON-`None` default returns
that default unchanged; on a registered callable it returns the decoded labels
and ignores the default. -/
theorem getinfo_default_amended (reg reg2 : Reg) (v : PyVal) (d d2 : PyData)
    (m : Nat) (ls : List String) (hc : v.callable = true)
    (hmiss : regGet reg v.id = none) (hd : d ≠ PyData.pyNone)
    (hhit : regGet reg2 v.id = some m) (hdec : decodeMask m = some ls) :
    getinfo reg v PyData.pyNone = Except.error PyErr.keyError ∧
    getinfo reg v d = Except.ok d ∧
    getinfo reg2 v d2 = Except.ok (PyData.pyStrList ls) := by
  refine ⟨?_, ?_, ?_⟩ <;> simp [getinfo, get_info, hc, hmiss, hhit, hdec, hd]

/-- Witness for C7 amended: empty registry vs a registry holding `0 ↦ 1`. -/
theorem getinfo_default_amended_witness :
    getinfo [] (PyVal.mk 0 true "f") PyData.pyNone = Except.error PyErr.keyError ∧
    getinfo [] (PyVal.mk 0 true "f") (PyData.pyInt 7) =
      Except.ok (PyData.pyInt 7) ∧
    getinfo [(0, 1)] (PyVal.mk 0 true "f") PyData.pyNone =
      Except.ok (PyData.pyStrList ["deprecated"]) :=
  getinfo_default_amended [] [(0, 1)] (PyVal.mk 0 true "f") (PyData.pyInt 7)
    PyData.pyNone 1 ["deprecated"] rfl rfl (by decide) rfl
    (by simp [decodeMask, decodeAux, labelName])

theorem getinfovars_go (reg : Reg) (vs : List (String × PyVal)) :
    ∀ acc : List (String × List String),
    (∀ p ∈ vs, p.2.callable = true →
      ∀ e, get_info reg p.2 = Except.error e → e = PyErr.keyError) →
    ((vs.filterMap (fun p => varsEntry reg p.2)).map Prod.fst).Nodup →
    (∀ nm ∈ (vs.filterMap (fun p => varsEntry reg p.2)).map Prod.fst,
      assocGet acc nm = none) →
    List.foldlM (varsStep reg) acc vs =
      Except.ok (acc ++ vs.filterMap (fun p => varsEntry reg p.2)) := by
  induction vs with
  | nil => intro acc _ _ _; simp [pure, Except.pure]
  | cons p t ih =>
    intro acc h1 h2 h3
    have h1t : ∀ q ∈ t, q.2.callable = true →
        ∀ e, get_info reg q.2 = Except.error e → e = PyErr.keyError :=
      fun q hq => h1 q (List.mem_cons_of_mem p hq)
    by_cases hc : p.2.callable = true
    · cases hgi : get_info reg p.2 with
      | error e =>
        have he : e = PyErr.keyError := h1 p (List.mem_cons_self p t) hc e hgi
        subst he
        have hstep : varsStep reg acc p = Except.ok acc := by
          simp [varsStep, hc, hgi]
        have hent : varsEntry reg p.2 = none := by
          simp [varsEntry, hc, hgi]
        simp only [List.filterMap_cons, hent] at h2 h3 ⊢
        rw [List.foldlM_cons, hstep]
        exact ih acc h1t h2 h3
      | ok ls =>
        have hstep : varsStep reg acc p =
            Except.ok (assocSet acc p.2.name ls) := by
          simp [varsStep, hc, hgi]
        have hent : varsEntry reg p.2 = some (p.2.name, ls) := by
          simp [varsEntry, hc, hgi]
        simp only [List.filterMap_cons, hent, List.map_cons] at h2 h3 ⊢
        obtain ⟨hnotin, h2t⟩ := List.nodup_cons.mp h2
        have haccp : assocGet acc p.2.name = none :=
          h3 p.2.name (List.mem_cons_self _ _)
        have hset : assocSet acc p.2.name ls = acc ++ [(p.2.name, ls)] :=
          assocSet_eq_append acc _ ls haccp
        have h3t : ∀ nm ∈ (t.filterMap (fun q => varsEntry reg q.2)).map Prod.fst,
            assocGet (acc ++ [(p.2.name, ls)]) nm = none := by
          intro nm hnm
          rw [assocGet_append_none acc [(p.2.name, ls)] nm
            (h3 nm (List.mem_cons_of_mem _ hnm))]
          have hne : ¬p.2.name = nm := fun hh => hnotin (hh ▸ hnm)
          simp [assocGet, hne]
        rw [List.foldlM_cons, hstep]
        have hrec := ih (acc ++ [(p.2.name, ls)]) h1t h2t h3t
        rw [show ((Except.ok (assocSet acc p.2.name ls) : Except PyErr _) >>=
            fun b => List.foldlM (varsStep reg) b t) =
            List.foldlM (varsStep reg) (assocSet acc p.2.name ls) t from rfl]
        rw [hset, hrec]
        simp
    · have hstep : varsStep reg acc p = Except.ok acc := by simp [varsStep, hc]
      have hent : varsEntry reg p.2 = none := by simp [varsEntry, hc]
      simp only [List.filterMap_cons, hent] at h2 h3 ⊢
      rw [List.foldlM_cons, hstep]
      exact ih acc h1t h2 h3

theorem getinfoiter_go (reg : Reg) (items : List PyVal) :
    ∀ acc : List (PyVal × List String),
    (∀ x ∈ items, x.callable = true →
      ∀ e, get_info reg x = Except.error e → e = PyErr.keyError) →
    ((items.filterMap (iterEntry reg)).map Prod.fst).Nodup →
    (∀ x ∈ (items.filterMap (iterEntry reg)).map Prod.fst,
      assocGet acc x = none) →
    List.foldlM (iterStep reg) acc items =
      Except.ok (acc ++ items.filterMap (iterEntry reg)) := by
  induction items with
  | nil => intro acc _ _ _; simp [pure, Except.pure]
  | cons p t ih =>
    intro acc h1 h2 h3
    have h1t : ∀ q ∈ t, q.callable = true →
        ∀ e, get_info reg q = Except.error e → e = PyErr.keyError :=
      fun q hq => h1 q (List.mem_cons_of_mem p hq)
    by_cases hc : p.callable = true
    · cases hgi : get_info reg p with
      | error e =>
        have he : e = PyErr.keyError := h1 p (List.mem_cons_self p t) hc e hgi
        subst he
        have hstep : iterStep reg acc p = Except.ok acc := by
          simp [iterStep, hc, hgi]
        have hent : iterEntry reg p = none := by
          simp [iterEntry, hc, hgi]
        simp only [List.filterMap_cons, hent] at h2 h3 ⊢
        rw [List.foldlM_cons, hstep]
        exact ih acc h1t h2 h3
      | ok ls =>
        have hstep : iterStep reg acc p = Except.ok (assocSet acc p ls) := by
          simp [iterStep, hc, hgi]
        have hent : iterEntry reg p = some (p, ls) := by
          simp [iterEntry, hc, hgi]
        simp only [List.filterMap_cons, hent, List.map_cons] at h2 h3 ⊢
        obtain ⟨hnotin, h2t⟩ := List.nodup_cons.mp h2
        have haccp : assocGet acc p = none := h3 p (List.mem_cons_self _ _)
        have hset : assocSet acc p ls = acc ++ [(p, ls)] :=
          assocSet_eq_append acc _ ls haccp
        have h3t : ∀ x ∈ (t.filterMap (iterEntry reg)).map Prod.fst,
            assocGet (acc ++ [(p, ls)]) x = none := by
          intro x hx
          rw [assocGet_append_none acc [(p, ls)] x
            (h3 x (List.mem_cons_of_mem _ hx))]
          have hne : ¬p = x := fun hh => hnotin (hh ▸ hx)
          simp [assocGet, hne]
        rw [List.foldlM_cons, hstep]
        have hrec := ih (acc ++ [(p, ls)]) h1t h2t h3t
        rw [show ((Except.ok (assocSet acc p ls) : Except PyErr _) >>=
            fun b => List.foldlM (iterStep reg) b t) =
            List.foldlM (iterStep reg) (assocSet acc p ls) t from rfl]
        rw [hset, hrec]
        simp
    · have hstep : iterStep reg acc p = Except.ok acc := by simp [iterStep, hc]
      have hent : iterEntry reg p = none := by simp [iterEntry, hc]
      simp only [List.filterMap_cons, hent] at h2 h3 ⊢
      rw [List.foldlM_cons, hstep]
      exact ih acc h1t h2 h3

/-- C8 amended: the bulk lookups filter to callables and silently omit every
unregistered callable and every non-callable item, returning — provided the
registered callables carry pairwise-distinct keys (display names for the
mapping/namespace variants, identities for the iterable variant) and no stored
entry decodes to `ValueError` — exactly one entry per registered callable,
keyed by display name (`getinfovars`/`getinfomodule`) or by the callable itself
(`getinfoiter`); being pure functions of the store here, they cannot mutate it.
(With colliding display names, later entries overwrite earlier ones, see the
counterexample.) -/
theorem bulk_lookup_amended (reg : Reg) (vs : List (String × PyVal))
    (items : List PyVal)
    (hv1 : ∀ p ∈ vs, p.2.callable = true →
      ∀ e, get_info reg p.2 = Except.error e → e = PyErr.keyError)
    (hv2 : ((vs.filterMap (fun p => varsEntry reg p.2)).map Prod.fst).Nodup)
    (hi1 : ∀ x ∈ items, x.callable = true →
      ∀ e, get_info reg x = Except.error e → e = PyErr.keyError)
    (hi2 : ((items.filterMap (iterEntry reg)).map Prod.fst).Nodup) :
    getinfovars reg vs = Except.ok (vs.filterMap (fun p => varsEntry reg p.2)) ∧
    getinfomodule reg vs =
      Except.ok (vs.filterMap (fun p => varsEntry reg p.2)) ∧
    getinfoiter reg items = Except.ok (items.filterMap (iterEntry reg)) := by
  have h1 := getinfovars_go reg vs [] hv1 hv2 (fun nm _ => rfl)
  have h2 := getinfoiter_go reg items [] hi1 hi2 (fun x _ => rfl)
  exact ⟨by simpa [getinfovars] using h1,
    by simpa [getinfomodule, getinfovars] using h1,
    by simpa [getinfoiter] using h2⟩

/-- Witness for C8 amended: one registered callable, one unregistered callable
and one non-callable value in the mapping; a registered and an unregistered
callable in the iterable. -/
theorem bulk_lookup_amended_witness :
    getinfovars [(1, 2)]
        [("a", PyVal.mk 1 true "f"), ("b", PyVal.mk 2 true "g"),
          ("c", PyVal.mk 3 false "h")] =
      Except.ok ([("a", PyVal.mk 1 true "f"), ("b", PyVal.mk 2 true "g"),
          ("c", PyVal.mk 3 false "h")].filterMap
        (fun p => varsEntry [(1, 2)] p.2)) ∧
    getinfomodule [(1, 2)]
        [("a", PyVal.mk 1 true "f"), ("b", PyVal.mk 2 true "g"),
          ("c", PyVal.mk 3 false "h")] =
      Except.ok ([("a", PyVal.mk 1 true "f"), ("b", PyVal.mk 2 true "g"),
          ("c", PyVal.mk 3 false "h")].filterMap
        (fun p => varsEntry [(1, 2)] p.2)) ∧
    getinfoiter [(1, 2)] [PyVal.mk 1 true "f", PyVal.mk 4 true "u"] =
      Except.ok ([PyVal.mk 1 true "f", PyVal.mk 4 true "u"].filterMap
        (iterEntry [(1, 2)])) := by
  refine bulk_lookup_amended [(1, 2)]
    [("a", PyVal.mk 1 true "f"), ("b", PyVal.mk 2 true "g"),
      ("c", PyVal.mk 3 false "h")]
    [PyVal.mk 1 true "f", PyVal.mk 4 true "u"] ?_ ?_ ?_ ?_
  · intro p hp hcall e hgi
    simp only [List.mem_cons, List.not_mem_nil, or_false] at hp
    rcases hp with rfl | rfl | rfl
    · simp [get_info, regGet, assocGet, decodeMask, decodeAux, labelName] at hgi
    · simp [get_info, regGet, assocGet] at hgi
      exact hgi.symm
    · simp at hcall
  · have e1 : varsEntry [(1, 2)] (PyVal.mk 1 true "f") = some ("f", ["pure"]) := by
      simp [varsEntry, get_info, regGet, assocGet, decodeMask, decodeAux,
        labelName]
    have e2 : varsEntry [(1, 2)] (PyVal.mk 2 true "g") = none := by
      simp [varsEntry, get_info, regGet, assocGet]
    have e3 : varsEntry [(1, 2)] (PyVal.mk 3 false "h") = none := by
      simp [varsEntry]
    simp [List.filterMap_cons, e1, e2, e3]
  · intro x hx hcall e hgi
    simp only [List.mem_cons, List.not_mem_nil, or_false] at hx
    rcases hx with rfl | rfl
    · simp [get_info, regGet, assocGet, decodeMask, decodeAux, labelName] at hgi
    · simp [get_info, regGet, assocGet] at hgi
      exact hgi.symm
  · have e1 : iterEntry [(1, 2)] (PyVal.mk 1 true "f") =
        some (PyVal.mk 1 true "f", ["pure"]) := by
      simp [iterEntry, get_info, regGet, assocGet, decodeMask, decodeAux,
        labelName]
    have e2 : iterEntry [(1, 2)] (PyVal.mk 4 true "u") = none := by
      simp [iterEntry, get_info, regGet, assocGet]
    simp [List.filterMap_cons, e1, e2]

/-- C8 counterexample: two distinct registered callables whose `__name__` is the
same `"g"` yield a single entry — the later one overwrites the earlier — so the
bulk lookup does NOT return one entry for each registered callable. -/
theorem bulk_lookup_name_collision_cex :
    getinfovars [(1, 2), (2, 1)]
        [("a", PyVal.mk 1 true "g"), ("b", PyVal.mk 2 true "g")] =
      Except.ok [("g", ["deprecated"])] ∧
    (List.filter (fun p => regContains [(1, 2), (2, 1)] p.2.id)
        [("a", PyVal.mk 1 true "g"), ("b", PyVal.mk 2 true "g")]).length = 2 := by
  constructor
  · simp [getinfovars, varsStep, get_info, regGet, assocGet, decodeMask,
      decodeAux, labelName, List.foldlM_cons, assocSet, pure, Except.pure,
      bind, Except.bind]
  · decide

/-- C9 (code bug): on a callable whose raw annotations are deferred strings
(PEP 563 — the style this repository itself uses), `check_signature` fails with
correctly supplied, fully resolved expected annotations, because its field loop
re-asserts the RAW `getfullargspec` annotations against the resolved expected
ones; indeed NO expected annotation value can make it pass there, contradicting
the documented "evaluated type hints" contract the claim states. -/
theorem check_signature_pep563_bug :
    check_signature pep563Func [("a", PyData.pyType "int")] ["a"] none none none
      [] none = Except.error "annotations" ∧
    ∀ ann : List (String × PyData),
      check_signature pep563Func ann ["a"] none none none [] none ≠
        Except.ok () := by
  constructor
  · rfl
  · intro ann
    unfold check_signature
    by_cases h : ann = pep563Func.hints
    · subst h
      simp [pep563Func]
    · simp [h]
